import Mathlib

/-!
Shallow embedding of the linux-emc device/driver binding framework
(rust/kernel/i2c.rs, rust/kernel/rtc.rs, rust/kernel/firmware.rs).

Machine integers are modelled as Nat/Int; host (C kernel) calls are
modelled as oracles passed explicitly; fallible code returns
Option/Except; ownership transfer across the C boundary is made
explicit as state fields and event traces.
-/

namespace LinuxEmc

/-! ## Error conventions

Kernel errors are negative C ints. `to_result` turns a negative return
value into an error; `from_kernel_result!` returns the (negative) error
code of a failed body to the host. We model kernel errors directly as
the negative `Int` they carry. -/

/-- The `EINVAL` errno number. -/
def EINVAL : Int := 22

namespace I2c

/-! ## Id record encoding (rust/kernel/i2c.rs, `DeviceId::to_rawid`)

`bindings::i2c_device_id` has a fixed 20-byte `name` buffer and one
reserved integer field `driver_data`. `to_rawid` copies the identity
bytes with a `while` loop of indexed stores and then stores a zero
terminator; an out-of-bounds index is a build-time error. We model
each indexed store as a checked write returning `Option`, so `none`
models the build-time failure. -/

/-- Capacity of the `name` buffer in `bindings::i2c_device_id` (`[0; 20]`). -/
def NAME_CAP : Nat := 20

/-- Shallow embedding of `bindings::i2c_device_id`: the fixed-width name
buffer (a list of byte values, always of length `NAME_CAP`) and the
reserved `driver_data` field used to store a context offset. -/
structure i2c_device_id where
  name : List Nat
  driver_data : Int
deriving Repr, DecidableEq

/-- The all-zero record `DeviceId::ZERO`. -/
def ZERO_ID : i2c_device_id :=
  { name := List.replicate NAME_CAP 0, driver_data := 0 }

/-- Checked indexed store `buf[i] = v`: succeeds only in bounds; an
out-of-bounds index models the "index out of bounds" build-time error. -/
def setByte (buf : List Nat) (i : Nat) (v : Nat) : Option (List Nat) :=
  if i < buf.length then some (buf.set i v) else none

/-- The `while i < name.len()` copy loop of `DeviceId::to_rawid`:
stores `name[i]` into `id.name[i]` for each successive index. -/
def copyName (buf : List Nat) (i : Nat) : List Nat → Option (List Nat)
  | [] => some buf
  | b :: rest =>
    match setByte buf i b with
    | none => none
    | some buf2 => copyName buf2 (i + 1) rest

/-- Embedding of `DeviceId::to_rawid`: starting from the all-zero record, copy the
identity bytes, store the zero terminator at index `name.len()`, and
store `offset` in `driver_data`. `none` models the build-time
out-of-bounds failure. -/
def to_rawid (name : List Nat) (offset : Int) : Option i2c_device_id :=
  (copyName ZERO_ID.name 0 name).bind fun buf =>
    (setByte buf name.length 0).bind fun buf2 =>
      some { name := buf2, driver_data := offset }

/-- The in-bounds meaning of the copy loop, as an unconditional
overwrite (used only to state lemmas about `copyName`). -/
def overwrite (buf : List Nat) (i : Nat) : List Nat → List Nat
  | [] => buf
  | b :: rest => overwrite (buf.set i b) (i + 1) rest

theorem overwrite_length (nm : List Nat) :
    ∀ (buf : List Nat) (i : Nat), (overwrite buf i nm).length = buf.length := by
  induction nm with
  | nil => intro buf i; rfl
  | cons b rest ih =>
    intro buf i
    rw [overwrite, ih, List.length_set]

theorem overwrite_append (nm : List Nat) :
    ∀ (pre post : List Nat), nm.length ≤ post.length →
      overwrite (pre ++ post) pre.length nm = pre ++ nm ++ post.drop nm.length := by
  induction nm with
  | nil => intro pre post _; simp [overwrite]
  | cons b rest ih =>
    intro pre post h
    match post with
    | [] => simp [List.length_cons] at h
    | p0 :: ptail =>
      rw [overwrite]
      have hset : (pre ++ p0 :: ptail).set pre.length b = (pre ++ [b]) ++ ptail := by
        rw [List.set_append_right _ _ (Nat.le_refl _), Nat.sub_self]
        simp [List.append_assoc]
      have hlen : pre.length + 1 = (pre ++ [b]).length := by simp
      rw [hset, hlen, ih (pre ++ [b]) ptail (by simp [List.length_cons] at h; omega)]
      simp [List.append_assoc]

theorem copyName_eq_overwrite (nm : List Nat) :
    ∀ (buf : List Nat) (i : Nat), i + nm.length ≤ buf.length →
      copyName buf i nm = some (overwrite buf i nm) := by
  induction nm with
  | nil => intro buf i _; rfl
  | cons b rest ih =>
    intro buf i h
    have hi : i < buf.length := by simp [List.length_cons] at h; omega
    rw [copyName, setByte, if_pos hi, overwrite]
    exact ih (buf.set i b) (i + 1) (by rw [List.length_set]; simp [List.length_cons] at h; omega)

theorem copyName_eq_none (nm : List Nat) :
    ∀ (buf : List Nat) (i : Nat), nm ≠ [] → buf.length < i + nm.length →
      copyName buf i nm = none := by
  induction nm with
  | nil => intro buf i h _; exact absurd rfl h
  | cons b rest ih =>
    intro buf i _ h
    by_cases hi : i < buf.length
    · rw [copyName, setByte, if_pos hi]
      have hrest : rest ≠ [] := by
        intro hempty
        subst hempty
        simp [List.length_cons] at h
        omega
      exact ih (buf.set i b) (i + 1) hrest (by rw [List.length_set]; simp [List.length_cons] at h; omega)
    · rw [copyName, setByte, if_neg hi]

theorem drop_replicate (a : Nat) :
    ∀ (n i : Nat), (List.replicate n a).drop i = List.replicate (n - i) a := by
  intro n
  induction n with
  | zero => intro i; simp
  | succ m ih =>
    intro i
    match i with
    | 0 => simp
    | k + 1 =>
      rw [List.replicate_succ, List.drop_succ_cons, ih k]
      have he : m + 1 - (k + 1) = m - k := by omega
      rw [he]

theorem ZERO_ID_name_length : ZERO_ID.name.length = NAME_CAP := by
  simp [ZERO_ID]

/-- C1: `DeviceId::to_rawid` succeeds (performs no out-of-bounds store)
iff the encoded length of the identity — its bytes plus the trailing
zero terminator, `name.length + 1` — is at most the fixed capacity of
the record name buffer. In particular an identity whose encoded length
is exactly `NAME_CAP` succeeds and one byte more fails. -/
theorem to_rawid_succeeds_iff (name : List Nat) (offset : Int) :
    (to_rawid name offset).isSome ↔ name.length + 1 ≤ NAME_CAP := by
  constructor
  · intro h
    by_contra hlen
    rcases Nat.lt_or_ge NAME_CAP name.length with hgt | hge
    · have hnone : copyName ZERO_ID.name 0 name = none := by
        apply copyName_eq_none
        · intro he
          rw [he] at hgt
          simp at hgt
        · rw [ZERO_ID_name_length]; omega
      rw [to_rawid, hnone] at h
      simp at h
    · have hc : copyName ZERO_ID.name 0 name = some (overwrite ZERO_ID.name 0 name) :=
        copyName_eq_overwrite name ZERO_ID.name 0 (by rw [ZERO_ID_name_length]; omega)
      have hb : (overwrite ZERO_ID.name 0 name).length = NAME_CAP := by
        rw [overwrite_length, ZERO_ID_name_length]
      have hs : setByte (overwrite ZERO_ID.name 0 name) name.length 0 = none := by
        rw [setByte, if_neg (by rw [hb]; omega)]
      rw [to_rawid, hc, Option.some_bind, hs] at h
      simp at h
  · intro h
    have hc : copyName ZERO_ID.name 0 name = some (overwrite ZERO_ID.name 0 name) :=
      copyName_eq_overwrite name ZERO_ID.name 0 (by rw [ZERO_ID_name_length]; omega)
    have hb : (overwrite ZERO_ID.name 0 name).length = NAME_CAP := by
      rw [overwrite_length, ZERO_ID_name_length]
    have hs : setByte (overwrite ZERO_ID.name 0 name) name.length 0
        = some ((overwrite ZERO_ID.name 0 name).set name.length 0) := by
      rw [setByte, if_pos (by rw [hb]; omega)]
    rw [to_rawid, hc, Option.some_bind, hs]
    simp

/-- C7: for every identity that fits in the fixed record, `to_rawid`
is lossless: the name buffer holds exactly the identity bytes followed
by a zero terminator with every remaining byte zero, and `driver_data`
holds exactly the given offset. -/
theorem to_rawid_lossless (name : List Nat) (offset : Int)
    (h : name.length + 1 ≤ NAME_CAP) :
    to_rawid name offset =
      some { name := name ++ List.replicate (NAME_CAP - name.length) 0,
             driver_data := offset } := by
  have ho := overwrite_append name [] (List.replicate NAME_CAP 0)
    (by simp; omega)
  simp only [List.nil_append, List.length_nil] at ho
  have hzero : ZERO_ID.name = List.replicate NAME_CAP 0 := rfl
  have hc : copyName ZERO_ID.name 0 name = some (overwrite ZERO_ID.name 0 name) :=
    copyName_eq_overwrite name ZERO_ID.name 0 (by rw [ZERO_ID_name_length]; omega)
  have hov : overwrite ZERO_ID.name 0 name
      = name ++ List.replicate (NAME_CAP - name.length) 0 := by
    rw [hzero, ho, drop_replicate]
  have hb : (overwrite ZERO_ID.name 0 name).length = NAME_CAP := by
    rw [overwrite_length, ZERO_ID_name_length]
  have hs : setByte (overwrite ZERO_ID.name 0 name) name.length 0
      = some ((overwrite ZERO_ID.name 0 name).set name.length 0) := by
    rw [setByte, if_pos (by rw [hb]; omega)]
  rw [to_rawid, hc, Option.some_bind, hs, Option.some_bind, hov]
  have hrep : List.replicate (NAME_CAP - name.length) (0 : Nat)
      = 0 :: List.replicate (NAME_CAP - name.length - 1) 0 := by
    have h1 : NAME_CAP - name.length = (NAME_CAP - name.length - 1) + 1 := by
      simp only [NAME_CAP] at h ⊢; omega
    conv_lhs => rw [h1]
    rw [List.replicate_succ]
  rw [hrep, List.set_append_right _ _ (Nat.le_refl _), Nat.sub_self,
    List.set_cons_zero]

/-! ## Id table layout and context matching
(rust/kernel/i2c.rs, `DriverAdapter::get_id_info` and
`DriverAdapter::get_device_id_info`)

An id table is a flat array of raw records plus a side arena of
`Option Ctx` context slots. We model the memory layout abstractly:
record `i` lives at address `recAddr i`, the context slot of entry `i`
at address `ctxAddr i`, and `infos i` is the value stored in slot `i`. -/

/-- Address layout of an id table with `n` entries: the address of each
raw record, the address of each per-entry context slot, and the
`Option Ctx` value stored in each slot. -/
structure TableLayout (Ctx : Type) where
  n : Nat
  recAddr : Nat → Int
  ctxAddr : Nat → Int
  infos : Nat → Option Ctx

/-- Well-formedness of a real in-memory layout: a context slot never
coincides with its own record, and distinct entries have distinct
context slots. -/
def TableLayout.WF {Ctx : Type} (t : TableLayout Ctx) : Prop :=
  (∀ i, i < t.n → t.ctxAddr i ≠ t.recAddr i) ∧
  (∀ i, i < t.n → ∀ j, j < t.n → t.ctxAddr i = t.ctxAddr j → i = j)

/-- Modelled from the spec: `IdArray::new` (rust/kernel/driver.rs, not
under src/) computes, for every entry with non-absent context,
`offset = address_of(context_storage) - address_of(record)` and stores
it in the reserved field of the record; for absent context it stores
zero. This gives the value of the reserved field of record `i`. -/
def TableLayout.offset {Ctx : Type} (t : TableLayout Ctx) (i : Nat) : Int :=
  if (t.infos i).isSome then t.ctxAddr i - t.recAddr i else 0

/-- Reading the `Option Ctx` storage located at address `a` inside the
arena of the table (the `&*ptr` dereference in `get_id_info`): yields
the stored value of the slot whose address is `a`, if any. -/
def TableLayout.deref {Ctx : Type} (t : TableLayout Ctx) (a : Int) :
    Option (Option Ctx) :=
  ((List.range t.n).find? (fun j => t.ctxAddr j == a)).map t.infos

/-- The body of `get_id_info` / `get_device_id_info` after the host
lookup returned record `i`: read the reserved offset field of the
record; a zero offset yields no context; otherwise dereference
record-address plus offset as `Option Ctx` storage and `.as_ref()` it. -/
def lookupInfo {Ctx : Type} (t : TableLayout Ctx) (i : Nat) : Option Ctx :=
  let offset := t.offset i
  if offset = 0 then none
  else
    match t.deref (t.recAddr i + offset) with
    | none => none
    | some stored => stored

/-- Embedding of `DriverAdapter::get_id_info` (and, with the same structure,
`get_device_id_info`): if the driver has no table (`T::..._TABLE?`)
the result is no context; if the host lookup returned null the result
is no context; otherwise decode the matched record. `hostMatch` is the
oracle for the host matching routine: the index of the matched record,
or `none` for a null result. -/
def get_id_info {Ctx : Type} (table : Option (TableLayout Ctx))
    (hostMatch : Option Nat) : Option Ctx :=
  match table with
  | none => none
  | some t =>
    match hostMatch with
    | none => none
    | some i => lookupInfo t i

theorem find?_range_ctxAddr {Ctx : Type} (t : TableLayout Ctx) (i : Nat)
    (hWF : t.WF) (hi : i < t.n) :
    (List.range t.n).find? (fun j => t.ctxAddr j == t.ctxAddr i) = some i := by
  have hex : ∃ x, x ∈ List.range t.n ∧ (fun j => t.ctxAddr j == t.ctxAddr i) x := by
    exact ⟨i, List.mem_range.mpr hi, by simp⟩
  have hsome := List.find?_isSome.mpr hex
  rcases Option.isSome_iff_exists.mp hsome with ⟨j, hj⟩
  have hpj := List.find?_some hj
  have hmem := List.mem_of_find?_eq_some hj
  have hji : j = i := by
    apply hWF.2 j (List.mem_range.mp hmem) i hi
    simpa using hpj
  rw [hj, hji]

/-- C4: for every well-formed id table and every record index `i`
returned by the host lookup, context matching never fails and returns
exactly the context supplied for entry `i`: the stored value when
entry `i` has a context, and no context when entry `i` has none (the
zero offset is the valid no-context outcome, not an error). -/
theorem get_id_info_matches {Ctx : Type} (t : TableLayout Ctx) (i : Nat)
    (hWF : t.WF) (hi : i < t.n) :
    get_id_info (some t) (some i) = t.infos i := by
  rw [get_id_info, lookupInfo]
  cases hinfo : t.infos i with
  | none =>
    have hoff : t.offset i = 0 := by rw [TableLayout.offset, hinfo]; rfl
    simp [hoff]
  | some c =>
    have hoff : t.offset i = t.ctxAddr i - t.recAddr i := by
      rw [TableLayout.offset, hinfo]; rfl
    have hne : t.offset i ≠ 0 := by
      rw [hoff]
      intro hz
      exact hWF.1 i hi (by omega)
    rw [if_neg hne]
    have haddr : t.recAddr i + t.offset i = t.ctxAddr i := by rw [hoff]; ring
    rw [haddr, TableLayout.deref, find?_range_ctxAddr t i hWF hi]
    simp [hinfo]

/-! ## Driver adapter trampolines
(rust/kernel/i2c.rs, `DriverAdapter::probe_new_callback` and
`DriverAdapter::remove_callback`)

The private-data slot of the device (`i2c_{set,get}_clientdata`) is
modelled as an `Option Data` field holding the owned data currently
stored for the host; ownership transfer events of the remove path are
recorded in an explicit trace. -/

/-- The host device state seen by the trampolines: the per-device
private-data slot. `some d` means the slot holds live owned data `d`. -/
structure I2cState (Data : Type) where
  clientdata : Option Data
deriving Repr, DecidableEq

/-- Embedding of `DriverAdapter::probe_new_callback`: wrap the device record, match
it against the optional OF table and the optional I2C id table, invoke
`T::probe`, and on success store the returned owned data into the
private-data slot (`i2c_set_clientdata`) and return 0; on failure
return the error of `probe` to the host without touching the slot
(`from_kernel_result!`). `ofMatch` and `i2cMatch` are the oracles for
the two host matching routines. -/
def probe_new_callback {IdInfo DevIdInfo Data : Type}
    (ofTable : Option (TableLayout IdInfo))
    (idTable : Option (TableLayout DevIdInfo))
    (ofMatch i2cMatch : Option Nat)
    (probe : Option IdInfo → Option DevIdInfo → Except Int Data)
    (st : I2cState Data) : Int × I2cState Data :=
  let info := get_id_info ofTable ofMatch
  let device_info := get_id_info idTable i2cMatch
  match probe info device_info with
  | .error e => (e, st)
  | .ok data => (0, { st with clientdata := some data })

/-- Ownership events of the remove path. -/
inductive RemoveEvent (Data : Type) where
  /-- Reclaim step `T::Data::from_pointer(ptr)`: the owned data is reclaimed from
  the private-data slot. -/
  | reclaim (d : Data)
  /-- Borrowed call `T::remove(&data)`: the driver remove logic runs on a borrow. -/
  | removeCall (d : Data)
  /-- Finalization step `device_remove(&data)` followed by the drop of the reclaimed
  value: the data is finalized. -/
  | finalize (d : Data)
deriving Repr, DecidableEq

/-- Embedding of `DriverAdapter::remove_callback`: read the private-data slot
(`i2c_get_clientdata`), reclaim ownership of the stored data
(`from_pointer`), call `T::remove` on a borrow, unconditionally call
`device_remove` (finalization), and only then propagate the result of
`remove` via `ret?` (`from_kernel_result!`). The host guarantees the
slot holds data (remove only follows a successful probe); `none`
models the violated precondition. The returned trace records the
ownership events in order. -/
def remove_callback {Data : Type} (remove : Data → Except Int Unit)
    (st : I2cState Data) :
    Option (Int × I2cState Data × List (RemoveEvent Data)) :=
  match st.clientdata with
  | none => none
  | some data =>
    let st1 : I2cState Data := { st with clientdata := none }
    let log1 := [RemoveEvent.reclaim data]
    let ret := remove data
    let log2 := log1 ++ [RemoveEvent.removeCall data]
    let log3 := log2 ++ [RemoveEvent.finalize data]
    match ret with
    | .ok _ => some (0, st1, log3)
    | .error e => some (e, st1, log3)

/-- C3: for every driver probe outcome, the probe trampoline stores
the returned owned data into the private-data slot and returns 0 when
`probe` succeeds, and propagates the error of `probe` to the host
without writing the slot when `probe` fails. -/
theorem probe_new_callback_spec {IdInfo DevIdInfo Data : Type}
    (ofTable : Option (TableLayout IdInfo))
    (idTable : Option (TableLayout DevIdInfo))
    (ofMatch i2cMatch : Option Nat)
    (probe : Option IdInfo → Option DevIdInfo → Except Int Data)
    (st : I2cState Data) :
    (∀ d, probe (get_id_info ofTable ofMatch) (get_id_info idTable i2cMatch)
        = Except.ok d →
      probe_new_callback ofTable idTable ofMatch i2cMatch probe st
        = (0, { clientdata := some d })) ∧
    (∀ e, probe (get_id_info ofTable ofMatch) (get_id_info idTable i2cMatch)
        = Except.error e →
      probe_new_callback ofTable idTable ofMatch i2cMatch probe st
        = (e, st)) := by
  constructor
  · intro d hd
    simp [probe_new_callback, hd]
  · intro e he
    simp [probe_new_callback, he]

/-- C3 witness. -/
theorem probe_new_callback_spec_witness :
    @probe_new_callback Unit Unit Nat
      none none none none (fun _ _ => Except.ok 7) { clientdata := none }
      = (0, { clientdata := some 7 }) :=
  (@probe_new_callback_spec Unit Unit Nat none none none none
    (fun _ _ => Except.ok 7) { clientdata := none }).1 7 rfl

/-- C2: for every driver remove function and every device whose slot
holds owned data `d`, the remove trampoline reclaims `d` from the
slot, invokes `T::remove` on a borrow of `d`, finalizes `d` exactly
once — after the remove call and regardless of whether it returned
success or an error — and only then propagates the result of
`T::remove` to the host (0 on success, the error code on failure). -/
theorem remove_callback_spec {Data : Type} (remove : Data → Except Int Unit)
    (st : I2cState Data) (d : Data) (h : st.clientdata = some d) :
    remove_callback remove st =
      some ((match remove d with | .ok _ => 0 | .error e => e),
        { clientdata := none },
        [RemoveEvent.reclaim d, RemoveEvent.removeCall d, RemoveEvent.finalize d]) := by
  rw [remove_callback, h]
  cases hr : remove d with
  | ok u => simp [hr]
  | error e => simp [hr]

/-- C2 witness. -/
theorem remove_callback_spec_witness :
    @remove_callback Nat (fun _ => Except.error (-5)) { clientdata := some 3 }
      = some (-5, { clientdata := none },
          [RemoveEvent.reclaim 3, RemoveEvent.removeCall 3, RemoveEvent.finalize 3]) :=
  remove_callback_spec (fun _ => Except.error (-5)) { clientdata := some 3 } 3 rfl

/-- Concrete two-entry table used to instantiate the matching theorem:
entry 0 carries context `10`, entry 1 carries none. -/
def wtable : TableLayout Nat :=
  { n := 2
    recAddr := fun i => 100 + 24 * (i : Int)
    ctxAddr := fun i => 200 + 8 * (i : Int)
    infos := fun i => if i = 0 then some 10 else none }

/-- C4 witness. -/
theorem get_id_info_matches_witness :
    get_id_info (some wtable) (some 0) = some 10 := by
  have hWF : wtable.WF := ⟨by decide, by decide⟩
  exact (get_id_info_matches wtable 0 hWF (by decide)).trans rfl

end I2c

namespace Rtc

/-! ## RTC registration state machine (rust/kernel/rtc.rs)

`Registration<T>` holds the optional allocated rtc device, its own
callback-table storage (`rtc_class_ops`), and the optional parent
device which doubles as the registered-state flag. The host calls
`devm_rtc_allocate_device` and `devm_rtc_register_device` are oracles;
the private-data slot of the rtc device (`dev_set_drvdata`) and the
finalized-data trace are returned explicitly. -/

/-- The callback table `bindings::rtc_class_ops`: whether each
function-pointer slot is installed (`Some`) or absent (`None`). -/
structure RtcOps where
  read_time : Bool
  set_time : Bool
deriving Repr, DecidableEq

/-- Default table `bindings::rtc_class_ops::default()`: every callback absent. -/
def defaultOps : RtcOps := { read_time := false, set_time := false }

/-- The fields of `Registration<T>` (the `PhantomData` marker is
dropped): `parent.isSome` is exactly the registered state. -/
structure Registration (Data : Type) where
  rtc : Option Nat
  ops : RtcOps
  parent : Option Nat
deriving Repr, DecidableEq

/-- Host behavior oracle for one `register` call: the result of
`devm_rtc_allocate_device` (an error pointer or a device handle) and
the return value of `devm_rtc_register_device`. -/
structure HostOracle where
  allocResult : Except Int Nat
  registerResult : Int
deriving Repr

/-- The complete outcome of one `register` call: the returned result,
the registration state afterwards, the private-data slot of the rtc
device afterwards (`some d` = live owned data stored for the host),
and the data instances finalized during the call. -/
structure RegisterOutcome (Data : Type) where
  result : Except Int Unit
  reg : Registration Data
  slot : Option Data
  finalized : List Data
deriving Repr

/-- Embedding of `Registration::new`: always succeeds, with no rtc device, the
default (all-absent) callback table, and no parent. -/
def Registration.new (Data : Type) : Except Int (Registration Data) :=
  Except.ok { rtc := none, ops := defaultOps, parent := none }

/-- Embedding of `Registration::register`: reject with `EINVAL` if already
registered (`self.parent.is_some()`); otherwise install the callbacks
the driver provides (`T::HAS_READ_TIME` / `T::HAS_SET_TIME`), allocate
the rtc device, store the owned data in its private-data slot
(`into_pointer` + `dev_set_drvdata`), and ask the host to finalize
registration. If the host rejects (negative return), reclaim the data
(`from_pointer`, which finalizes it on drop — the slot no longer holds
live owned data) and surface the error; on success store the parent
and succeed. -/
def Registration.register {Data : Type} (hasReadTime hasSetTime : Bool)
    (oracle : HostOracle) (st : Registration Data) (parentDev : Nat)
    (data : Data) (slot : Option Data) : RegisterOutcome Data :=
  if st.parent.isSome then
    { result := Except.error (-EINVAL), reg := st, slot := slot, finalized := [] }
  else
    let ops : RtcOps :=
      { read_time := if hasReadTime then true else st.ops.read_time,
        set_time := if hasSetTime then true else st.ops.set_time }
    let st1 : Registration Data := { st with ops := ops }
    match oracle.allocResult with
    | Except.error e =>
      { result := Except.error e, reg := st1, slot := slot, finalized := [] }
    | Except.ok rtcDev =>
      let st2 : Registration Data := { st1 with rtc := some rtcDev }
      if oracle.registerResult < 0 then
        { result := Except.error oracle.registerResult, reg := st2,
          slot := none, finalized := [data] }
      else
        { result := Except.ok (), reg := { st2 with parent := some parentDev },
          slot := some data, finalized := [] }

/-- C10: `Registration::<T>::new()` never fails: it returns `Ok` with
an unregistered instance — rtc device absent, parent absent, and the
default callback table with every operation absent. -/
theorem registration_new_unregistered (Data : Type) :
    Registration.new Data
      = Except.ok { rtc := none,
                    ops := { read_time := false, set_time := false },
                    parent := none } := rfl

/-- C6: a second `register` call on an already-registered instance
always fails with `EINVAL` and performs no mutation: the registration
state (rtc device pointer, callback table, parent) and the
private-data slot are returned unchanged, and nothing is finalized. -/
theorem register_second_call_rejected {Data : Type} (hasReadTime hasSetTime : Bool)
    (oracle : HostOracle) (st : Registration Data) (parentDev : Nat)
    (data : Data) (slot : Option Data) (h : st.parent.isSome) :
    Registration.register hasReadTime hasSetTime oracle st parentDev data slot =
      { result := Except.error (-EINVAL), reg := st, slot := slot,
        finalized := [] } := by
  rw [Registration.register, if_pos h]

/-- C6 witness. -/
theorem register_second_call_rejected_witness :
    @Registration.register Nat true true
      { allocResult := Except.ok 4, registerResult := 0 }
      { rtc := some 4, ops := { read_time := true, set_time := true },
        parent := some 1 } 2 5 (some 5)
      = { result := Except.error (-EINVAL),
          reg := { rtc := some 4, ops := { read_time := true, set_time := true },
                   parent := some 1 },
          slot := some 5, finalized := [] } :=
  register_second_call_rejected true true
    { allocResult := Except.ok 4, registerResult := 0 }
    { rtc := some 4, ops := { read_time := true, set_time := true },
      parent := some 1 } 2 5 (some 5) rfl

/-- C5: if the host rejects finalization during `register` (negative
`devm_rtc_register_device` return), the supplied owned data is
reclaimed and finalized immediately (exactly once, no leak), the host
error is surfaced to the caller, no live data remains in the
private-data slot, and the registration stays unregistered: a later
`register` call with a cooperative host is not rejected as
already-configured and succeeds. -/
theorem register_host_reject_finalizes {Data : Type} (hasReadTime hasSetTime : Bool)
    (oracle : HostOracle) (st : Registration Data) (parentDev : Nat)
    (data : Data) (slot : Option Data) (dev : Nat)
    (hparent : st.parent = none) (halloc : oracle.allocResult = Except.ok dev)
    (hret : oracle.registerResult < 0) :
    (Registration.register hasReadTime hasSetTime oracle st parentDev data slot).result
        = Except.error oracle.registerResult ∧
    (Registration.register hasReadTime hasSetTime oracle st parentDev data slot).slot
        = none ∧
    (Registration.register hasReadTime hasSetTime oracle st parentDev data slot).finalized
        = [data] ∧
    (Registration.register hasReadTime hasSetTime oracle st parentDev data slot).reg.parent
        = none ∧
    (∀ (oracle2 : HostOracle) (p2 : Nat) (d2 : Data) (slot2 : Option Data) (dev2 : Nat),
      oracle2.allocResult = Except.ok dev2 → 0 ≤ oracle2.registerResult →
      (Registration.register hasReadTime hasSetTime oracle2
        (Registration.register hasReadTime hasSetTime oracle st parentDev data slot).reg
        p2 d2 slot2).result = Except.ok ()) := by
  have hnp : st.parent.isSome = false := by rw [hparent]; rfl
  have hmain : Registration.register hasReadTime hasSetTime oracle st parentDev data slot
      = { result := Except.error oracle.registerResult,
          reg := { st with
            ops := { read_time := if hasReadTime then true else st.ops.read_time,
                     set_time := if hasSetTime then true else st.ops.set_time },
            rtc := some dev },
          slot := none, finalized := [data] } := by
    simp [Registration.register, hnp, halloc, hret]
  refine ⟨by rw [hmain], by rw [hmain], by rw [hmain],
    by rw [hmain]; exact hparent, ?_⟩
  intro oracle2 p2 d2 slot2 dev2 halloc2 hret2
  have hnot : ¬ oracle2.registerResult < 0 := by omega
  rw [hmain]
  simp [Registration.register, halloc2, hnot, hparent]

/-- C5 witness. -/
theorem register_host_reject_finalizes_witness :
    (@Registration.register Nat true false
      { allocResult := Except.ok 4, registerResult := -12 }
      { rtc := none, ops := defaultOps, parent := none } 2 5 none).result
        = Except.error (-12) ∧
    (@Registration.register Nat true false
      { allocResult := Except.ok 4, registerResult := -12 }
      { rtc := none, ops := defaultOps, parent := none } 2 5 none).slot = none ∧
    (@Registration.register Nat true false
      { allocResult := Except.ok 4, registerResult := -12 }
      { rtc := none, ops := defaultOps, parent := none } 2 5 none).finalized = [5] := by
  have h := register_host_reject_finalizes true false
    { allocResult := Except.ok 4, registerResult := -12 }
    { rtc := none, ops := defaultOps, parent := none } 2 5 none 4
    rfl rfl (by decide)
  exact ⟨h.1, h.2.1, h.2.2.1⟩

/-- C8: `register` installs the `read_time` callback iff the driver
provides it (`T::HAS_READ_TIME`) and the `set_time` callback iff the
driver provides it (`T::HAS_SET_TIME`); starting from the default
callback table of a fresh registration, the slots of unimplemented
operations remain absent, whatever the host oracle does. -/
theorem register_installs_callbacks {Data : Type} (hasReadTime hasSetTime : Bool)
    (oracle : HostOracle) (st : Registration Data) (parentDev : Nat)
    (data : Data) (slot : Option Data)
    (hops : st.ops = defaultOps) (hparent : st.parent = none) :
    (Registration.register hasReadTime hasSetTime oracle st parentDev data
      slot).reg.ops
      = { read_time := hasReadTime, set_time := hasSetTime } := by
  rw [Registration.register]
  rw [if_neg (by rw [hparent]; simp)]
  have hread : (if hasReadTime then true else st.ops.read_time) = hasReadTime := by
    rw [hops]; cases hasReadTime <;> rfl
  have hset : (if hasSetTime then true else st.ops.set_time) = hasSetTime := by
    rw [hops]; cases hasSetTime <;> rfl
  cases halloc : oracle.allocResult with
  | error e => simp [hread, hset]
  | ok dev =>
    by_cases hret : oracle.registerResult < 0
    · simp [if_pos hret, hread, hset]
    · simp [if_neg hret, hread, hset]

/-- C8 witness. -/
theorem register_installs_callbacks_witness :
    (@Registration.register Nat true false
      { allocResult := Except.ok 4, registerResult := 0 }
      { rtc := none, ops := defaultOps, parent := none } 2 5 none).reg.ops
      = { read_time := true, set_time := false } :=
  register_installs_callbacks true false
    { allocResult := Except.ok 4, registerResult := 0 }
    { rtc := none, ops := defaultOps, parent := none } 2 5 none rfl rfl

end Rtc

namespace I2c

/-- C7 witness. -/
theorem to_rawid_lossless_witness :
    to_rawid [104, 105] 7
      = some { name := [104, 105] ++ List.replicate 18 0, driver_data := 7 } :=
  to_rawid_lossless [104, 105] 7 (by decide)

end I2c

namespace Fw

/-! ## Scoped firmware resource (rust/kernel/firmware.rs)

The host load call (`request_firmware` and its variants) is an oracle:
either a negative errno, or a loaded blob record. The `Firmware`
handle owns the blob; its `Drop` impl calls `release_firmware` exactly
once, recorded as an event. -/

/-- The raw `bindings::firmware` record: the bytes of the memory
region behind the `data` pointer, and the reported load `size`. -/
structure RawFirmware where
  data : List Nat
  size : Nat
deriving Repr, DecidableEq

/-- Host oracle for one blocking load call: a negative errno, or a
loaded blob whose record the host filled in. -/
inductive LoadResult where
  | fail (e : Int)
  | loaded (fw : RawFirmware)
deriving Repr, DecidableEq

/-- The `Firmware` handle: owns the raw blob record. -/
structure Firmware where
  raw : RawFirmware
deriving Repr, DecidableEq

/-- Embedding of `Firmware::request`: `to_result(request_firmware(..))?` propagates
a host failure without constructing a handle; on success the filled
pointer is wrapped into an owning handle. -/
def Firmware.request (host : LoadResult) : Except Int Firmware :=
  match host with
  | .fail e => Except.error e
  | .loaded fw => Except.ok { raw := fw }

/-- Embedding of `Firmware::request_nowarn`: same behavior over its own host call. -/
def Firmware.request_nowarn (host : LoadResult) : Except Int Firmware :=
  match host with
  | .fail e => Except.error e
  | .loaded fw => Except.ok { raw := fw }

/-- Embedding of `Firmware::request_direct`: same behavior over its own host call. -/
def Firmware.request_direct (host : LoadResult) : Except Int Firmware :=
  match host with
  | .fail e => Except.error e
  | .loaded fw => Except.ok { raw := fw }

/-- Embedding of `Firmware::data`: `slice::from_raw_parts((*ptr).data, (*ptr).size)`
— the read-only view of the first `size` bytes of the blob region. -/
def Firmware.data (f : Firmware) : List Nat :=
  f.raw.data.take f.raw.size

/-- Host-boundary events of the firmware lifecycle. -/
inductive FwEvent where
  /-- Release call `release_firmware(ptr)`, from the `Drop` impl of `Firmware`. -/
  | release
deriving Repr, DecidableEq

/-- The `Drop` impl of `Firmware`: one `release_firmware` call. -/
def Firmware.dropHandle (_f : Firmware) : List FwEvent := [FwEvent.release]

/-- A request-use-release scope: request the firmware; on failure no
handle exists and nothing is ever released; on success read the data
view and let the handle go out of scope (running its `Drop`). Returns
the result visible to the caller and the trace of release events. -/
def firmwareScope (host : LoadResult) : Except Int (List Nat) × List FwEvent :=
  match Firmware.request host with
  | .error e => (Except.error e, [])
  | .ok f => (Except.ok (Firmware.data f), Firmware.dropHandle f)

/-- C9: the three request variants behave identically; when the host
load fails, `request` returns the host error, produces no handle and
holds no blob (no release event ever occurs); when the load succeeds,
the data view has exactly the load size reported by the host (given
the host contract that the region holds `size` bytes) and the blob is
released exactly once when the handle is dropped. -/
theorem firmware_request_spec (host : LoadResult) :
    Firmware.request_nowarn host = Firmware.request host ∧
    Firmware.request_direct host = Firmware.request host ∧
    (∀ e, host = LoadResult.fail e →
      Firmware.request host = Except.error e ∧
      firmwareScope host = (Except.error e, [])) ∧
    (∀ fw, host = LoadResult.loaded fw → fw.size ≤ fw.data.length →
      Firmware.request host = Except.ok { raw := fw } ∧
      (Firmware.data { raw := fw }).length = fw.size ∧
      firmwareScope host = (Except.ok (Firmware.data { raw := fw }),
        [FwEvent.release]) ∧
      List.count FwEvent.release [FwEvent.release] = 1) := by
  refine ⟨?_, ?_, ?_, ?_⟩
  · cases host <;> rfl
  · cases host <;> rfl
  · intro e he
    subst he
    exact ⟨rfl, rfl⟩
  · intro fw hfw hsize
    subst hfw
    refine ⟨rfl, ?_, rfl, rfl⟩
    simp only [Firmware.data, List.length_take]
    omega

/-- C9 witness. -/
theorem firmware_request_spec_witness :
    Firmware.request (LoadResult.loaded { data := [1, 2, 3], size := 3 })
        = Except.ok { raw := { data := [1, 2, 3], size := 3 } } ∧
    (Firmware.data { raw := { data := [1, 2, 3], size := 3 } }).length = 3 ∧
    firmwareScope (LoadResult.loaded { data := [1, 2, 3], size := 3 })
        = (Except.ok (Firmware.data { raw := { data := [1, 2, 3], size := 3 } }),
           [FwEvent.release]) ∧
    List.count FwEvent.release [FwEvent.release] = 1 :=
  (firmware_request_spec
    (LoadResult.loaded { data := [1, 2, 3], size := 3 })).2.2.2
    { data := [1, 2, 3], size := 3 } rfl (by decide)

end Fw

end LinuxEmc
